import Mathlib

/-!
# Verification of the flipper-rpc transport/session/chunking layer

Shallow embedding, in Lean 4, of the core of the `flipper-rpc` crate:
the chunked write engine (`src/fs/write.rs`), the chunked read engine
(`src/fs/read.rs`), the serial RPC transport with its two-stage frame
decoder and handshake (`src/transport/serial/rpc.rs`,
`src/transport/serial/helpers.rs`), the easy-API send path
(`src/transport.rs`) and the status-to-error mapping
(`src/rpc/error.rs`).

I/O is modelled by explicit oracles: a list of read events stands for
what the serial port would return, and functions produce the list of
messages or channel operations they would perform, together with read
counts and results.  Machine integers are `Nat` with explicit `% 2^32`
where u32 wraparound matters.  The protobuf codec (`prost`) is an
external collaborator of the crate; message decoding is therefore a
function parameter, while the varint length-delimiter primitives, whose
behavior the transport depends on, are embedded directly.
-/

namespace FlipperRpc

/-- u32 modulus: the sequence counter is a `u32` and wraps on overflow. -/
def U32 : Nat := 2 ^ 32

/-- u32 wraparound arithmetic. -/
def wrap32 (n : Nat) : Nat := n % U32

/-! ## Constants from `src/fs.rs` and `src/fs/write.rs` -/

/-- `src/fs.rs`: `pub(crate) const CHUNK_SIZE: usize = 512;` -/
def CHUNK_SIZE : Nat := 512

/-- `src/fs/write.rs`: `pub(crate) const THROUGHPUT_KIB: usize = 50;` -/
def THROUGHPUT_KIB : Nat := 50

/-- `src/fs/write.rs`: `CHUNKS_PER_SECOND = (THROUGHPUT_KIB * 1024) / CHUNK_SIZE` -/
def CHUNKS_PER_SECOND : Nat := (THROUGHPUT_KIB * 1024) / CHUNK_SIZE

/-- `src/fs/write.rs`: `PING_INTERVAL_SECONDS = 5` -/
def PING_INTERVAL_SECONDS : Nat := 5

/-- `src/fs/write.rs`: `CHUNKS_PER_PING = PING_INTERVAL_SECONDS * CHUNKS_PER_SECOND` -/
def CHUNKS_PER_PING : Nat := PING_INTERVAL_SECONDS * CHUNKS_PER_SECOND

/-! ## Chunking (`slice::chunks` and `chunks_or_empty` from `src/fs/write.rs`) -/

/-- Rust `data.chunks(sz)`: consecutive chunks of `sz` elements, the last
chunk possibly shorter; the empty slice yields no chunks.  (`sz = 0`
panics in Rust and is never used; we return `[l]` in that dead case to
make the recursion total.) -/
def chunksOf (sz : Nat) (l : List Nat) : List (List Nat) :=
  if h : l = [] then []
  else if hsz : sz = 0 then [l]
  else l.take sz :: chunksOf sz (l.drop sz)
termination_by l.length
decreasing_by
  simp only [List.length_drop]
  have : 0 < l.length := List.length_pos.mpr h
  omega

/-- `src/fs/write.rs` `chunks_or_empty`: `data.chunks(chunk_size)`, except
that an empty input produces exactly one empty chunk. -/
def chunks_or_empty (data : List Nat) (chunk_size : Nat) : List (List Nat) :=
  if data = [] then [[]] else chunksOf chunk_size data

/-! ## The fs_write message trace (`src/fs/write.rs`, `fs_write`) -/

/-- A message sent by `fs_write` through `send_and_receive_raw`: either the
keepalive ping (with its throwaway command id) or one `StorageWrite`
chunk (command id, chunk bytes, `has_next` flag).  Each send is answered
before the next one is issued (`send_and_receive_raw` is synchronous). -/
inductive Sent where
  | ping (command_id : Nat)
  | write (command_id : Nat) (chunk : List Nat) (has_next : Bool)
deriving DecidableEq, Repr

/-- The ping condition from the loop body of `fs_write`:
`i > CHUNKS_PER_PING && i % CHUNKS_PER_PING == 0`. -/
def pingDue (i : Nat) : Bool :=
  decide (CHUNKS_PER_PING < i) && decide (i % CHUNKS_PER_PING = 0)

/-- The `for (i, chunk) in chunks.enumerate()` loop body of `fs_write`:
optionally a ping (id `command_id + 1`, u32 add), then the chunk write
with `has_next = (i != total_chunks - 1)`. -/
def fsWriteLoop (command_id total : Nat) : List (Nat × List Nat) → List Sent
  | [] => []
  | (i, chunk) :: rest =>
      (if pingDue i then [Sent.ping (wrap32 (command_id + 1))] else [])
        ++ Sent.write command_id chunk (i != total - 1)
          :: fsWriteLoop command_id total rest

/-- The full message trace of `fs_write` for input `data`, where
`command_id` is the session counter value at entry
(`self.command_index()`). -/
def fsWriteTrace (data : List Nat) (command_id : Nat) : List Sent :=
  let chunks := chunks_or_empty data CHUNK_SIZE
  fsWriteLoop command_id chunks.length chunks.enum

/-- `fs_write` as a state transformer: the trace of sent messages and the
session counter after the final `self.increment_command_index(2)`. -/
def fs_write (data : List Nat) (command_index : Nat) : List Sent × Nat :=
  (fsWriteTrace data command_index, wrap32 (command_index + 2))

/-- Discriminator for write messages. -/
def Sent.isWrite : Sent → Bool
  | .write .. => true
  | _ => false

/-- Discriminator for ping messages. -/
def Sent.isPing : Sent → Bool
  | .ping _ => true
  | _ => false

/-- The command id carried by a sent message. -/
def Sent.cmdId : Sent → Nat
  | .ping c => c
  | .write c _ _ => c

/-- The `has_next` flag of a sent message (pings carry `false`). -/
def Sent.next : Sent → Bool
  | .ping _ => false
  | .write _ _ h => h

/-- The chunk bytes of a sent message (pings carry `[]`). -/
def Sent.chunk : Sent → List Nat
  | .ping _ => []
  | .write _ ch _ => ch

/-! ## Structural lemmas about the write loop -/

theorem fsWriteLoop_filter_write (c t : Nat) (l : List (Nat × List Nat)) :
    (fsWriteLoop c t l).filter Sent.isWrite
      = l.map (fun p => Sent.write c p.2 (p.1 != t - 1)) := by
  induction l with
  | nil => rfl
  | cons p rest ih =>
    obtain ⟨i, ch⟩ := p
    by_cases h : pingDue i <;>
      simp [fsWriteLoop, h, List.filter, Sent.isWrite, ih]

theorem fsWriteLoop_countP_ping (c t : Nat) (l : List (Nat × List Nat)) :
    (fsWriteLoop c t l).countP Sent.isPing = l.countP (fun p => pingDue p.1) := by
  induction l with
  | nil => rfl
  | cons p rest ih =>
    obtain ⟨i, ch⟩ := p
    by_cases h : pingDue i <;>
      simp [fsWriteLoop, h, List.countP_cons, Sent.isPing, ih]

/-- Length of `chunksOf`: for a nonempty list and positive chunk size it is
the ceiling of `length / sz`. -/
theorem chunksOf_length (sz : Nat) (hsz : 0 < sz) :
    ∀ (l : List Nat), l ≠ [] → (chunksOf sz l).length = (l.length + sz - 1) / sz := by
  suffices H : ∀ (n : Nat) (l : List Nat), l.length ≤ n → l ≠ [] →
      (chunksOf sz l).length = (l.length + sz - 1) / sz from
    fun l => H l.length l le_rfl
  intro n
  induction n with
  | zero =>
    intro l hl hne
    exact absurd (List.eq_nil_of_length_eq_zero (Nat.le_zero.mp hl)) hne
  | succ n ih =>
    intro l hl hne
    rw [chunksOf]
    simp only [hne, dif_neg, Nat.pos_iff_ne_zero.mp hsz, dite_false]
    have hlen : 0 < l.length := List.length_pos.mpr hne
    by_cases hsmall : l.length ≤ sz
    · have hdrop : l.drop sz = [] := by
        apply List.eq_nil_of_length_eq_zero
        simp [List.length_drop]
        omega
      rw [hdrop]
      have hnil : chunksOf sz [] = [] := by rw [chunksOf]; simp
      rw [hnil]
      simp only [List.length_cons, List.length_nil]
      have hdiv : (l.length + sz - 1) / sz = 1 :=
        Nat.div_eq_of_lt_le (by omega) (by omega)
      omega
    · push_neg at hsmall
      have hdne : l.drop sz ≠ [] := by
        intro hcon
        have := congrArg List.length hcon
        simp [List.length_drop] at this
        omega
      have hdl : (l.drop sz).length = l.length - sz := by simp
      have := ih (l.drop sz) (by omega) hdne
      simp only [List.length_cons, this, hdl]
      have h1 : l.length - sz + sz - 1 = (l.length - 1 - sz) + sz := by omega
      have h2 : l.length + sz - 1 = (l.length - 1) + sz := by omega
      rw [h1, h2, Nat.add_div_right _ hsz, Nat.add_div_right _ hsz]
      have h3 : l.length - 1 - sz = l.length - 1 - sz := rfl
      have h4 : (l.length - 1 - sz) / sz + 1 + 1 = (l.length - 1) / sz + 1 := by
        have h5 : l.length - 1 = (l.length - 1 - sz) + sz := by omega
        conv_rhs => rw [h5, Nat.add_div_right _ hsz]
      omega

/-- Number of chunks `fs_write` produces for `data`. -/
def numChunks (data : List Nat) : Nat := (chunks_or_empty data CHUNK_SIZE).length

theorem numChunks_eq (data : List Nat) :
    numChunks data = if data.length = 0 then 1 else (data.length + 511) / 512 := by
  unfold numChunks chunks_or_empty
  by_cases h : data = []
  · simp [h]
  · rw [if_neg h, if_neg (by simpa [List.length_eq_zero] using h)]
    exact chunksOf_length CHUNK_SIZE (by decide) data h

/-- One iteration of the `fs_write` loop, as a standalone piece:
the optional keepalive ping followed by the chunk write. -/
def writePiece (c t : Nat) (p : Nat × List Nat) : List Sent :=
  (if pingDue p.1 then [Sent.ping (wrap32 (c + 1))] else [])
    ++ [Sent.write c p.2 (p.1 != t - 1)]

theorem fsWriteLoop_eq_join (c t : Nat) (l : List (Nat × List Nat)) :
    fsWriteLoop c t l = (l.map (writePiece c t)).flatten := by
  induction l with
  | nil => rfl
  | cons p rest ih =>
    obtain ⟨i, ch⟩ := p
    simp [fsWriteLoop, writePiece, ih]

/-- The write messages of one `fs_write` run, in order. -/
def fsWrites (data : List Nat) (c : Nat) : List Sent :=
  (fs_write data c).1.filter Sent.isWrite

theorem fsWrites_eq (data : List Nat) (c : Nat) :
    fsWrites data c
      = (chunks_or_empty data CHUNK_SIZE).enum.map
          (fun p => Sent.write c p.2 (p.1 != numChunks data - 1)) := by
  unfold fsWrites fs_write fsWriteTrace numChunks
  exact fsWriteLoop_filter_write c _ _

/-! ## Claim C5 -/

/-- C5: For every input of `N` bytes, `fs_write` sends exactly
`ceil(N/512)` write-request chunks, minimum one (for `N = 0` exactly one
zero-length chunk); every chunk except the last carries
`has_next = true`, the last carries `has_next = false`, and all chunks
carry the same sequence id `c`. -/
theorem fs_write_chunk_shape (data : List Nat) (c : Nat) :
    (fsWrites data c).length
        = (if data.length = 0 then 1 else (data.length + 511) / 512)
    ∧ (∀ s ∈ fsWrites data c, s.cmdId = c)
    ∧ (∀ (j : Nat) (h : j < (fsWrites data c).length),
        ((fsWrites data c).get ⟨j, h⟩).next = (j != (fsWrites data c).length - 1))
    ∧ (data = [] → fsWrites data c = [Sent.write c [] false]) := by
  have hlen : (fsWrites data c).length = numChunks data := by
    rw [fsWrites_eq]
    simp [numChunks, List.enum_length]
  refine ⟨by rw [hlen, numChunks_eq], ?_, ?_, ?_⟩
  · intro s hs
    rw [fsWrites_eq] at hs
    obtain ⟨p, _, rfl⟩ := List.mem_map.mp hs
    rfl
  · intro j h
    have h' : j < (chunks_or_empty data CHUNK_SIZE).enum.length := by
      rw [fsWrites_eq] at h
      simpa using h
    have h'' : j < (chunks_or_empty data CHUNK_SIZE).length := by
      simpa [List.enum_length] using h'
    have hget : (fsWrites data c).get ⟨j, h⟩
        = Sent.write c ((chunks_or_empty data CHUNK_SIZE)[j])
            (j != numChunks data - 1) := by
      rw [List.get_eq_getElem, List.getElem_of_eq (fsWrites_eq data c) h,
        List.getElem_map, List.getElem_enum]
    rw [hget, hlen]
    rfl
  · intro h
    subst h
    rfl

/-- Witness for C5 at a concrete input: writing the empty input sends
exactly one zero-length chunk with `has_next = false`. -/
theorem fs_write_chunk_shape_witness :
    fsWrites [] 5 = [Sent.write 5 [] false] :=
  (fs_write_chunk_shape [] 5).2.2.2 rfl

/-! ## Claim C1 -/

/-- C1 counterexample: a write of zero interleaved pings (here: empty
input, a one-chunk chain) advances the counter by two, not by one as the
claim states (`1 + number of pings = 1` here). -/
theorem fs_write_counter_claim_cex :
    (fs_write [] 0).2 = 2
    ∧ (fs_write [] 0).1.countP Sent.isPing = 0
    ∧ (fs_write [] 0).2 ≠ 0 + 1 + (fs_write [] 0).1.countP Sent.isPing := by
  decide

/-- C1 (amended): on completion `fs_write` always advances the session
counter by exactly two (mod 2^32) — one for the chain and one for the
throwaway ping id — regardless of how many keepalive pings were actually
interleaved: every ping in every loop piece carries the single shared id
`(c + 1) mod 2^32`, so pings consume no further counter values. -/
theorem fs_write_counter_advances_by_two (data : List Nat) (c : Nat) :
    (fs_write data c).2 = wrap32 (c + 2)
    ∧ (∀ (i t : Nat) (ch : List Nat) (s : Sent), s ∈ writePiece c t (i, ch) →
        s.isPing = true → s.cmdId = wrap32 (c + 1)) := by
  refine ⟨rfl, ?_⟩
  intro i t ch s hsp hping
  unfold writePiece at hsp
  rcases List.mem_append.mp hsp with h1 | h1
  · by_cases hd : pingDue i
    · simp [hd] at h1
      subst h1
      rfl
    · simp [hd] at h1
  · simp at h1
    subst h1
    simp [Sent.isPing] at hping

/-- Witness for C1 (amended): at counter 3, a ping found in a loop piece
(here the piece of chunk 1000) carries id `wrap32 4`, and the run ends
at counter `wrap32 5`. -/
theorem fs_write_counter_advances_by_two_witness :
    (fs_write [] 3).2 = wrap32 (3 + 2)
    ∧ (Sent.ping (wrap32 (3 + 1))).cmdId = wrap32 (3 + 1) :=
  ⟨(fs_write_counter_advances_by_two [] 3).1,
   (fs_write_counter_advances_by_two [] 3).2 1000 1 [] (Sent.ping (wrap32 (3 + 1)))
     (by decide) (by decide)⟩

/-! ## Claim C4 -/

theorem countP_fst_enum (q : Nat → Bool) (l : List (List Nat)) :
    l.enum.countP (fun p => q p.1) = (List.range l.length).countP q := by
  rw [List.enum_eq_zip_range]
  have hmap : (((List.range l.length).zip l).map Prod.fst).countP q
      = ((List.range l.length).zip l).countP (fun p => q p.1) := by
    rw [List.countP_map]
    rfl
  rw [← hmap, List.map_fst_zip _ _ (by simp)]

/-- C4 counterexample: an input of 256001 bytes produces a 501-chunk
chain, so `i = 500 = CHUNKS_PER_PING` is a positive multiple of
`CHUNKS_PER_PING` below the chunk count and the claim demands a ping
before chunk 500 — yet the trace contains no ping at all (the code only
pings for `i > CHUNKS_PER_PING`, so the first ping would come before
chunk 1000). -/
theorem fs_write_ping_at_500_missing :
    0 < 500
    ∧ 500 % CHUNKS_PER_PING = 0
    ∧ 500 + 1 ≤ (fs_write (List.replicate 256001 0) 0).1.countP Sent.isWrite
    ∧ (fs_write (List.replicate 256001 0) 0).1.countP Sent.isPing = 0 := by
  have hk : numChunks (List.replicate 256001 0) = 501 := by
    rw [numChunks_eq, List.length_replicate]
    norm_num
  have hwrites : (fs_write (List.replicate 256001 0) 0).1.countP Sent.isWrite = 501 := by
    rw [List.countP_eq_length_filter]
    show (fsWrites (List.replicate 256001 0) 0).length = 501
    rw [fsWrites_eq, List.length_map, List.enum_length]
    exact hk
  have hpings : (fs_write (List.replicate 256001 0) 0).1.countP Sent.isPing = 0 := by
    show (fsWriteTrace (List.replicate 256001 0) 0).countP Sent.isPing = 0
    unfold fsWriteTrace
    rw [fsWriteLoop_countP_ping, countP_fst_enum]
    rw [List.countP_eq_zero]
    intro i hi
    rw [List.mem_range] at hi
    have hi' : i < 501 := by
      have : (chunks_or_empty (List.replicate 256001 0) CHUNK_SIZE).length = 501 := hk
      omega
    simp only [pingDue, Bool.and_eq_true, decide_eq_true_eq, not_and]
    intro hgt
    exfalso
    have : (500 : Nat) < i := hgt
    omega
  exact ⟨by omega, by decide, by omega, hpings⟩

/-- C4 (amended): during a chunked write the trace is the concatenation,
in chunk order, of per-chunk pieces; the piece for chunk `i` contains
the keepalive ping exactly when `i` is a multiple of `CHUNKS_PER_PING`
strictly greater than `CHUNKS_PER_PING` (so the first ping precedes
chunk `2 * CHUNKS_PER_PING`); within a piece the ping precedes the
chunk's write request; and the ping's sequence id `(c+1) mod 2^32`
differs from the chain's id `c`.  Each sent ping is answered before the
next chunk because `send_and_receive_raw` is synchronous. -/
theorem fs_write_ping_placement (data : List Nat) (c : Nat) :
    (fsWriteTrace data c
        = ((chunks_or_empty data CHUNK_SIZE).enum.map
            (writePiece c (numChunks data))).flatten)
    ∧ (∀ i ch, Sent.ping (wrap32 (c + 1)) ∈ writePiece c (numChunks data) (i, ch)
        ↔ (CHUNKS_PER_PING < i ∧ i % CHUNKS_PER_PING = 0))
    ∧ (∀ i ch t, (writePiece c t (i, ch)).getLast?
        = some (Sent.write c ch (i != t - 1)))
    ∧ (c < U32 → wrap32 (c + 1) ≠ c) := by
  refine ⟨fsWriteLoop_eq_join c _ _, ?_, ?_, ?_⟩
  · intro i ch
    unfold writePiece
    by_cases hd : pingDue i
    · constructor
      · intro _
        simpa [pingDue] using hd
      · intro _
        simp [hd]
    · constructor
      · intro hmem
        simp [hd] at hmem
      · intro hcon
        have hp : pingDue i = true := by
          simp only [pingDue, Bool.and_eq_true, decide_eq_true_eq]
          exact hcon
        exact absurd hp hd
  · intro i ch t
    unfold writePiece
    rw [List.getLast?_concat]
  · intro hc
    simp only [wrap32, U32] at *
    omega

/-- Witness for C4 (amended): the ping id differs from the chain id at a
concrete counter value. -/
theorem fs_write_ping_placement_witness : wrap32 (7 + 1) ≠ 7 :=
  (fs_write_ping_placement [] 7).2.2.2 (by decide)

/-! ## Status codes and the status-to-error mapping (`src/rpc/error.rs`)

The `CommandStatus` enum itself is prost-generated code (module
`proto::flipper`) and its source is not part of the repository; its
variant set is taken from `src/rpc/error.rs` (which matches on every
variant) and its numeric values from the spec's status-code space. -/

/-- The status-code enumeration matched exhaustively by
`CommandStatus::into_result` in `src/rpc/error.rs`. -/
inductive CommandStatus where
  | ok
  | error
  | errorDecode
  | errorNotImplemented
  | errorBusy
  | errorContinuousCommandInterrupted
  | errorInvalidParameters
  | errorStorageNotReady
  | errorStorageExist
  | errorStorageNotExist
  | errorStorageInvalidParameter
  | errorStorageDenied
  | errorStorageInvalidName
  | errorStorageInternal
  | errorStorageNotImplemented
  | errorStorageAlreadyOpen
  | errorStorageDirNotEmpty
  | errorAppCantStart
  | errorAppSystemLocked
  | errorAppNotRunning
  | errorAppCmdError
  | errorVirtualDisplayAlreadyStarted
  | errorVirtualDisplayNotStarted
  | errorGpioModeIncorrect
  | errorGpioUnknownPinMode
deriving DecidableEq, Repr

/-- `src/rpc/error.rs` `CommandError`. -/
inductive CommandError where
  | unknown
  | decode
  | notImplemented
  | busy
  | continuousCommandInterrupted
  | invalidParameters
deriving DecidableEq, Repr

/-- `src/rpc/error.rs` `StorageError`. -/
inductive StorageError where
  | notReady
  | alreadyExists
  | notFound
  | invalidParameter
  | permissionDenied
  | invalidName
  | internal
  | notImplemented
  | alreadyOpen
  | directoryNotEmpty
deriving DecidableEq, Repr

/-- `src/rpc/error.rs` `ApplicationError`. -/
inductive ApplicationError where
  | cannotStart
  | systemLocked
  | rpcUnavailable
  | commandExecution
deriving DecidableEq, Repr

/-- `src/rpc/error.rs` `VirtualDisplayError`. -/
inductive VirtualDisplayError where
  | alreadyStarted
  | notStarted
deriving DecidableEq, Repr

/-- `src/rpc/error.rs` `GPIOError`. -/
inductive GPIOError where
  | incorrectMode
  | unknownMode
deriving DecidableEq, Repr

/-- `src/rpc/error.rs` `Error`: the categorized RPC error. -/
inductive RpcError where
  | commandErr (e : CommandError)
  | storageErr (e : StorageError)
  | applicationErr (e : ApplicationError)
  | virtualDisplayErr (e : VirtualDisplayError)
  | gpioErr (e : GPIOError)
deriving DecidableEq, Repr

/-- `src/rpc/error.rs` `CommandStatus::into_result`: the Ok status yields
the value unchanged, every other status yields its categorized error. -/
def CommandStatus.into_result {α : Type} : CommandStatus → α → Except RpcError α
  | .ok, v => Except.ok v
  | .error, _ => Except.error (.commandErr .unknown)
  | .errorDecode, _ => Except.error (.commandErr .decode)
  | .errorNotImplemented, _ => Except.error (.commandErr .notImplemented)
  | .errorBusy, _ => Except.error (.commandErr .busy)
  | .errorContinuousCommandInterrupted, _ =>
      Except.error (.commandErr .continuousCommandInterrupted)
  | .errorInvalidParameters, _ => Except.error (.commandErr .invalidParameters)
  | .errorStorageNotReady, _ => Except.error (.storageErr .notReady)
  | .errorStorageExist, _ => Except.error (.storageErr .alreadyExists)
  | .errorStorageNotExist, _ => Except.error (.storageErr .notFound)
  | .errorStorageInvalidParameter, _ => Except.error (.storageErr .invalidParameter)
  | .errorStorageDenied, _ => Except.error (.storageErr .permissionDenied)
  | .errorStorageInvalidName, _ => Except.error (.storageErr .invalidName)
  | .errorStorageInternal, _ => Except.error (.storageErr .internal)
  | .errorStorageNotImplemented, _ => Except.error (.storageErr .notImplemented)
  | .errorStorageAlreadyOpen, _ => Except.error (.storageErr .alreadyOpen)
  | .errorStorageDirNotEmpty, _ => Except.error (.storageErr .directoryNotEmpty)
  | .errorAppCantStart, _ => Except.error (.applicationErr .cannotStart)
  | .errorAppSystemLocked, _ => Except.error (.applicationErr .systemLocked)
  | .errorAppNotRunning, _ => Except.error (.applicationErr .rpcUnavailable)
  | .errorAppCmdError, _ => Except.error (.applicationErr .commandExecution)
  | .errorVirtualDisplayAlreadyStarted, _ =>
      Except.error (.virtualDisplayErr .alreadyStarted)
  | .errorVirtualDisplayNotStarted, _ =>
      Except.error (.virtualDisplayErr .notStarted)
  | .errorGpioModeIncorrect, _ => Except.error (.gpioErr .incorrectMode)
  | .errorGpioUnknownPinMode, _ => Except.error (.gpioErr .unknownMode)

/-- Modelled from the spec: the prost-generated `TryFrom<i32> for
CommandStatus` (module `proto::flipper` is generated code not under
src/).  It recognizes exactly the enumerated status-code values of the
device's protobuf schema and fails on every other raw value. -/
def CommandStatus.tryFrom (v : Int) : Option CommandStatus :=
  if v = 0 then some .ok
  else if v = 1 then some .error
  else if v = 2 then some .errorDecode
  else if v = 3 then some .errorNotImplemented
  else if v = 4 then some .errorBusy
  else if v = 5 then some .errorStorageNotReady
  else if v = 6 then some .errorStorageExist
  else if v = 7 then some .errorStorageNotExist
  else if v = 8 then some .errorStorageInvalidParameter
  else if v = 9 then some .errorStorageDenied
  else if v = 10 then some .errorStorageInvalidName
  else if v = 11 then some .errorStorageInternal
  else if v = 12 then some .errorStorageNotImplemented
  else if v = 13 then some .errorStorageAlreadyOpen
  else if v = 14 then some .errorContinuousCommandInterrupted
  else if v = 15 then some .errorInvalidParameters
  else if v = 16 then some .errorAppCantStart
  else if v = 17 then some .errorAppSystemLocked
  else if v = 18 then some .errorStorageDirNotEmpty
  else if v = 19 then some .errorVirtualDisplayAlreadyStarted
  else if v = 20 then some .errorVirtualDisplayNotStarted
  else if v = 21 then some .errorAppNotRunning
  else if v = 22 then some .errorAppCmdError
  else if v = 58 then some .errorGpioModeIncorrect
  else if v = 59 then some .errorGpioUnknownPinMode
  else none

/-! ## Messages -/

/-- The content of a decoded `proto::Main`, restricted to what the
embedded operations inspect (`src/rpc/res.rs`): a `StorageReadResponse`
with its optional file data, or anything else. -/
inductive MsgContent where
  | storageRead (file : Option (List Nat))
  | other
deriving DecidableEq, Repr

/-- The fields of `proto::Main` that the transport and chunk engines
read: `command_id`, raw `command_status` (an i32), `has_next`, content. -/
structure MainMsg where
  command_id : Nat
  command_status : Int
  has_next : Bool
  content : MsgContent
deriving DecidableEq, Repr

/-! ## The optimized two-stage receive (`src/transport/serial/rpc.rs`) -/

/-- The `while value >= 0x80` loop of `varint_length`, with fuel: the
value strictly shrinks on each division by 128, so `value` itself is
enough fuel. -/
def varintLengthGo : Nat → Nat → Nat
  | 0, _ => 1
  | fuel + 1, value =>
      if value < 0x80 then 1 else 1 + varintLengthGo fuel (value / 0x80)

/-- `varint_length` from `src/transport/serial/helpers.rs` (the same
function as prost's `length_delimiter_len`): number of bytes of the
varint encoding of `value`. -/
def varint_length (value : Nat) : Nat := varintLengthGo value value

/-- LEB128 varint decoding from a byte buffer (prost's
`decode_length_delimiter`): accumulate 7 bits per byte, at most 10
bytes; fails if the buffer ends mid-varint or the varint is too long. -/
def decodeVarintGo : List Nat → Nat → Nat → Option Nat
  | [], _, _ => none
  | b :: bs, shift, acc =>
    if 63 < shift then none
    else if b % 256 < 0x80 then some (acc + b % 256 * 2 ^ shift)
    else decodeVarintGo bs (shift + 7) (acc + b % 256 % 0x80 * 2 ^ shift)

/-- prost `decode_length_delimiter` on a byte buffer. -/
def decode_length_delimiter (l : List Nat) : Option Nat := decodeVarintGo l 0 0

/-- One result of `port.read` in the initial polling loop: `ok bytes btr`
delivers `bytes` and makes the following `bytes_to_read()` report `btr`;
`timeout` is a timed-out read; `ioerr` is any other I/O error. -/
inductive ReadEv where
  | ok (bytes : List Nat) (btr : Nat)
  | timeout
  | ioerr
deriving DecidableEq, Repr

/-- `STACK_LIMIT` of the optimized `receive_raw` with the default feature
set: 10 bytes of varint headroom plus 128 bytes of payload. -/
def STACK_LIMIT : Nat := 10 + 128

/-- The initial polling loop of the optimized `receive_raw`
(`while read < available_bytes { match self.port.read(..) ... }`):
returns the number of `read` calls made and the bytes accumulated, or
`none` after a hard I/O error.  A zero-byte read or a timeout breaks the
loop; a successful read updates `available_bytes` from
`bytes_to_read()`.  An exhausted event list stands for a stream that
stays quiescent. -/
def readLoopGo (buflen : Nat) : List ReadEv → List Nat → Nat → Nat →
    Nat × Option (List Nat)
  | [], acc, _, calls => (calls, some acc)
  | ev :: rest, acc, avail, calls =>
    if avail ≤ acc.length then (calls, some acc)
    else
      match ev with
      | ReadEv.ok bytes btr =>
          let n := min bytes.length (buflen - acc.length)
          if n = 0 then (calls + 1, some acc)
          else readLoopGo buflen rest (acc ++ bytes.take n) btr (calls + 1)
      | ReadEv.timeout => (calls + 1, some acc)
      | ReadEv.ioerr => (calls + 1, none)

/-- Outcome of a modelled `receive_raw`, together with how the Rust code
leaves its caller: a decoded message, a propagated I/O error, the hard
"no data read" error, a varint/framing error, a protobuf decode error, a
categorized device-status error — or a panic (`.unwrap()` on an
unrecognized status aborts instead of returning). -/
inductive RecvResult where
  | ok (m : MainMsg)
  | ioError
  | noData
  | framingError
  | decodeError
  | statusErr (e : RpcError)
  | panicked
deriving DecidableEq, Repr

/-- The tail of both `receive_raw` variants:
`CommandStatus::try_from(main.command_status).unwrap().into_result(main)`.
An unrecognized raw status makes `.unwrap()` panic. -/
def commandStatusFinish (m : MainMsg) : RecvResult :=
  match CommandStatus.tryFrom m.command_status with
  | none => RecvResult.panicked
  | some s =>
    match s.into_result m with
    | Except.ok v => RecvResult.ok v
    | Except.error e => RecvResult.statusErr e

/-- The optimized `receive_raw`, as a function of the protobuf decoder
`dec` (prost is an external collaborator), the polling-loop read events
and the byte stream served to the single second-stage `read_exact`.
Returns the number of physical read operations performed (counting
`read_exact` as one) and the outcome. -/
def receive_raw (dec : List Nat → Option MainMsg) (evs : List ReadEv)
    (exact : List Nat) : Nat × RecvResult :=
  match readLoopGo STACK_LIMIT evs [] STACK_LIMIT 0 with
  | (calls, none) => (calls, RecvResult.ioError)
  | (calls, some acc) =>
    if acc.length = 0 then (calls, RecvResult.noData)
    else
      match decode_length_delimiter acc with
      | none => (calls, RecvResult.framingError)
      | some total_data_length =>
        let varintLen := varint_length total_data_length
        let partData := acc.drop varintLen
        if total_data_length ≤ partData.length then
          match dec partData with
          | none => (calls, RecvResult.decodeError)
          | some m => (calls, commandStatusFinish m)
        else
          let remaining := total_data_length - partData.length
          if remaining ≤ STACK_LIMIT then
            if exact.length < remaining then (calls + 1, RecvResult.ioError)
            else
              match dec (partData ++ exact.take remaining) with
              | none => (calls + 1, RecvResult.decodeError)
              | some m => (calls + 1, commandStatusFinish m)
          else
            if exact.length < remaining then (calls + 1, RecvResult.ioError)
            else
              match dec (partData ++ exact.take remaining) with
              | none => (calls + 1, RecvResult.decodeError)
              | some m => (calls + 1, commandStatusFinish m)

theorem commandStatusFinish_ne_noData (m : MainMsg) :
    commandStatusFinish m ≠ RecvResult.noData := by
  unfold commandStatusFinish
  rcases CommandStatus.tryFrom m.command_status with _ | s
  · simp
  · dsimp only
    rcases s.into_result m with v | e <;> simp

/-- A decoder stub that always yields an Ok-status message. -/
def decOkStub : List Nat → Option MainMsg :=
  fun _ => some ⟨0, 0, false, MsgContent.other⟩

/-- A decoder stub yielding a message with raw status `s`. -/
def decStatus (s : Int) : List Nat → Option MainMsg :=
  fun _ => some ⟨0, s, false, MsgContent.other⟩

/-! ## Claim C2 -/

/-- C2 counterexample: a frame whose bytes trickle in one at a time makes
the polling loop issue three physical reads, and the receive still
succeeds — so the optimized `receive_raw` is not bounded by two physical
read operations per frame. -/
theorem receive_two_read_bound_cex :
    (receive_raw decOkStub [ReadEv.ok [1] 138, ReadEv.ok [1] 138, ReadEv.ok [1] 0] []).1 = 3
    ∧ (receive_raw decOkStub [ReadEv.ok [1] 138, ReadEv.ok [1] 138, ReadEv.ok [1] 0] []).2
        = RecvResult.ok ⟨0, 0, false, MsgContent.other⟩ := by
  decide

/-- C2 (amended): beyond the initial polling loop (which issues one read
per arriving burst of bytes and may therefore issue arbitrarily many),
the optimized `receive_raw` performs at most one additional physical
read operation (the single `read_exact` of the second stage), for any
payload length. -/
theorem receive_extra_reads_le_one (dec : List Nat → Option MainMsg)
    (evs : List ReadEv) (exact : List Nat) :
    (receive_raw dec evs exact).1
      ≤ (readLoopGo STACK_LIMIT evs [] STACK_LIMIT 0).1 + 1 := by
  unfold receive_raw
  rcases h : readLoopGo STACK_LIMIT evs [] STACK_LIMIT 0 with ⟨calls, oacc⟩
  rcases oacc with _ | acc
  all_goals dsimp only
  all_goals repeat' split
  all_goals try dsimp only
  all_goals omega

/-! ## Claim C8 -/

/-- C8: in the optimized `receive_raw`'s initial read loop a timeout or a
zero-byte read stops the loop immediately without being an error (the
loop only fails hard when a genuine I/O error event occurs), and the
receive ends in the hard "no data" error exactly when the loop completed
with zero bytes read in total. -/
theorem receive_no_data_iff (dec : List Nat → Option MainMsg)
    (evs : List ReadEv) (exact : List Nat) :
    ((receive_raw dec evs exact).2 = RecvResult.noData
      ↔ (readLoopGo STACK_LIMIT evs [] STACK_LIMIT 0).2 = some [])
    ∧ ((readLoopGo STACK_LIMIT evs [] STACK_LIMIT 0).2 = none → ReadEv.ioerr ∈ evs)
    ∧ (∀ (buflen : Nat) (rest : List ReadEv) (acc : List Nat) (avail calls : Nat),
        acc.length < avail →
        readLoopGo buflen (ReadEv.timeout :: rest) acc avail calls
          = (calls + 1, some acc))
    ∧ (∀ (buflen btr : Nat) (rest : List ReadEv) (acc : List Nat) (avail calls : Nat),
        acc.length < avail →
        readLoopGo buflen (ReadEv.ok [] btr :: rest) acc avail calls
          = (calls + 1, some acc)) := by
  refine ⟨?_, ?_, ?_, ?_⟩
  · unfold receive_raw
    rcases h : readLoopGo STACK_LIMIT evs [] STACK_LIMIT 0 with ⟨calls, oacc⟩
    rcases oacc with _ | acc
    · simp
    · dsimp only [Option.some.injEq]
      by_cases h0 : acc.length = 0
      · simp [h0, List.length_eq_zero.mp h0]
      · rw [if_neg h0]
        have hne : acc ≠ [] := fun hcon => h0 (by simp [hcon])
        constructor
        · intro hcon
          exfalso
          revert hcon
          repeat' split
          all_goals simp [commandStatusFinish_ne_noData]
        · intro hcon
          exact absurd (Option.some.inj hcon) hne
  · suffices H : ∀ (buflen : Nat) (l : List ReadEv) (acc : List Nat) (avail calls : Nat),
        (readLoopGo buflen l acc avail calls).2 = none → ReadEv.ioerr ∈ l from
      H STACK_LIMIT evs [] STACK_LIMIT 0
    intro buflen l
    induction l with
    | nil =>
      intro acc avail calls h
      simp [readLoopGo] at h
    | cons ev rest ih =>
      intro acc avail calls h
      simp only [readLoopGo] at h
      split at h
      · simp at h
      · rcases ev with ⟨bytes, btr⟩ | _ | _
        · dsimp only at h
          split at h
          · simp at h
          · exact List.mem_cons_of_mem _ (ih _ _ _ h)
        · simp at h
        · exact List.mem_cons_self _ _
  · intro buflen rest acc avail calls hlt
    simp only [readLoopGo]
    rw [if_neg (by omega)]
  · intro buflen btr rest acc avail calls hlt
    simp only [readLoopGo]
    rw [if_neg (by omega)]
    simp

/-- Witness for C8: a single timed-out read yields the hard "no data"
error. -/
theorem receive_no_data_iff_witness :
    (receive_raw decOkStub [ReadEv.timeout] []).2 = RecvResult.noData :=
  (receive_no_data_iff decOkStub [ReadEv.timeout] []).1.mpr (by decide)

/-! ## Claim C3 -/

/-- C3 counterexample: a message carrying the unrecognized raw status 23
does not make `receive_raw` return an error — the `.unwrap()` panics
(process abort), which is not an error return to the caller. -/
theorem receive_unknown_status_cex :
    (receive_raw (decStatus 23) [ReadEv.ok [1, 0] 0] []).2 = RecvResult.panicked
    ∧ CommandStatus.tryFrom 23 = none := by
  decide

/-- C3 (amended): for every raw status value outside the recognized
enumeration, `receive_raw` panics on the `.unwrap()` of
`CommandStatus::try_from` instead of returning; it neither returns
success nor an error for such messages. -/
theorem receive_unknown_status_panics (s : Int)
    (h : CommandStatus.tryFrom s = none) :
    (receive_raw (decStatus s) [ReadEv.ok [1, 0] 0] []).2 = RecvResult.panicked := by
  have hred : (receive_raw (decStatus s) [ReadEv.ok [1, 0] 0] []).2
      = commandStatusFinish ⟨0, s, false, MsgContent.other⟩ := rfl
  rw [hred]
  unfold commandStatusFinish
  rw [show (⟨0, s, false, MsgContent.other⟩ : MainMsg).command_status = s from rfl, h]

/-- Witness for C3 (amended) at the concrete unrecognized status 23. -/
theorem receive_unknown_status_panics_witness :
    (receive_raw (decStatus 23) [ReadEv.ok [1, 0] 0] []).2 = RecvResult.panicked :=
  receive_unknown_status_panics 23 (by decide)

/-! ## Claim C6 -/

/-- C6: the status-to-error mapping is total and deterministic over the
recognized enumeration: `Ok` yields success with the payload unchanged;
every other recognized status maps to exactly one categorized error,
independent of the payload; `Ok` never maps to an error. -/
theorem into_result_total_deterministic :
    (∀ (v : Nat), CommandStatus.into_result CommandStatus.ok v = Except.ok v)
    ∧ (∀ (s : CommandStatus) (v w : Nat), s ≠ CommandStatus.ok →
        ∃ e : RpcError, s.into_result v = Except.error e
          ∧ s.into_result w = Except.error e) := by
  refine ⟨fun v => rfl, ?_⟩
  intro s v w hs
  cases s
  · exact absurd rfl hs
  all_goals exact ⟨_, rfl, rfl⟩

/-- Witness for C6 at a concrete non-Ok status and two payloads. -/
theorem into_result_total_deterministic_witness :
    ∃ e : RpcError, CommandStatus.into_result CommandStatus.errorBusy (5 : Nat)
        = Except.error e
      ∧ CommandStatus.into_result CommandStatus.errorBusy (9 : Nat)
        = Except.error e :=
  into_result_total_deterministic.2 CommandStatus.errorBusy 5 9 (by decide)

/-! ## The chunked read engine (`src/fs/read.rs`) -/

/-- The conversion applied to each received frame in `fs_read`:
`Response::from(response).try_into::<Option<Cow<[u8]>>>()`.  A
`StorageReadResponse` converts to `Ok(file data option)`; any other
response variant fails the conversion (`src/rpc/res.rs`). -/
def msgPayload (m : MainMsg) : Option (Option (List Nat)) :=
  match m.content with
  | MsgContent.storageRead f => some f
  | MsgContent.other => none

/-- The payload bytes of a frame that converts successfully with data. -/
def payloadBytes (m : MainMsg) : List Nat :=
  match m.content with
  | MsgContent.storageRead (some d) => d
  | _ => []

/-- The receive loop of `fs_read`: receive a frame, remember `has_next`,
convert it (conversion failure or absent data is an error, `none`),
append the data to the buffer, and stop returning the buffer when
`has_next` is false.  The oracle list holds the frames the transport
would deliver; an exhausted oracle while the chain is still open is
`none` (the operation cannot complete). -/
def fsReadLoop : List MainMsg → List Nat → Option (List Nat)
  | [], _ => none
  | m :: rest, buf =>
    match msgPayload m with
    | none => none
    | some none => none
    | some (some data) =>
      if m.has_next then fsReadLoop rest (buf ++ data) else some (buf ++ data)

/-- `fs_read` after its single initial `StorageRead` request: drain the
response chain into an accumulating buffer. -/
def fs_read (ms : List MainMsg) : Option (List Nat) := fsReadLoop ms []

theorem fsReadLoop_closes (last : MainMsg) (rest : List MainMsg)
    (hlast : last.has_next = false)
    (hl : msgPayload last = some (some (payloadBytes last))) :
    ∀ (pre : List MainMsg) (buf : List Nat),
      (∀ m ∈ pre, m.has_next = true) →
      (∀ m ∈ pre, msgPayload m = some (some (payloadBytes m))) →
      fsReadLoop (pre ++ last :: rest) buf
        = some (buf ++ ((pre ++ [last]).map payloadBytes).flatten) := by
  intro pre
  induction pre with
  | nil =>
    intro buf _ _
    simp only [List.nil_append, fsReadLoop, hl, hlast]
    simp
  | cons m pre' ih =>
    intro buf hnext hdata
    have hm : msgPayload m = some (some (payloadBytes m)) :=
      hdata m (List.mem_cons_self _ _)
    have hmn : m.has_next = true := hnext m (List.mem_cons_self _ _)
    simp only [List.cons_append, fsReadLoop, hm, hmn, if_true, List.append_eq]
    rw [ih (buf ++ payloadBytes m)
      (fun x hx => hnext x (List.mem_cons_of_mem _ hx))
      (fun x hx => hdata x (List.mem_cons_of_mem _ hx))]
    simp [List.append_assoc]

/-! ## Claim C7 -/

/-- C7: for every chunked read, the loop appends each received frame's
payload to the accumulating buffer and terminates exactly on the first
frame with `has_next = false` (frames after it are not consumed); the
returned buffer is the in-order concatenation of the per-frame payloads,
and its length is the sum of the per-frame payload lengths. -/
theorem fs_read_accumulates (pre : List MainMsg) (last : MainMsg)
    (rest : List MainMsg)
    (hpre : ∀ m ∈ pre, m.has_next = true)
    (hlast : last.has_next = false)
    (hdata : ∀ m ∈ pre ++ [last], msgPayload m = some (some (payloadBytes m))) :
    fs_read (pre ++ last :: rest)
        = some (((pre ++ [last]).map payloadBytes).flatten)
    ∧ (((pre ++ [last]).map payloadBytes).flatten).length
        = ((pre ++ [last]).map (fun m => (payloadBytes m).length)).sum := by
  constructor
  · have hl : msgPayload last = some (some (payloadBytes last)) :=
      hdata last (by simp)
    have := fsReadLoop_closes last rest hlast hl pre [] hpre
      (fun m hm => hdata m (List.mem_append_left _ hm))
    simpa [fs_read] using this
  · rw [List.length_flatten, List.map_map]
    rfl

/-- Concrete frames for the C7 witness. -/
def rdFrameA : MainMsg := ⟨0, 0, true, MsgContent.storageRead (some [1, 2])⟩

/-- Closing frame for the C7 witness. -/
def rdFrameB : MainMsg := ⟨0, 0, false, MsgContent.storageRead (some [3])⟩

/-- A frame beyond the chain end, untouched by the C7 witness run. -/
def rdFrameC : MainMsg := ⟨9, 9, true, MsgContent.other⟩

/-- Witness for C7: a two-frame chain accumulates `[1, 2, 3]` and stops
before the third (never-consumed) frame. -/
theorem fs_read_accumulates_witness :
    fs_read ([rdFrameA] ++ rdFrameB :: [rdFrameC])
        = some ((([rdFrameA] ++ [rdFrameB]).map payloadBytes).flatten)
    ∧ ((([rdFrameA] ++ [rdFrameB]).map payloadBytes).flatten).length
        = (([rdFrameA] ++ [rdFrameB]).map
            (fun m => (payloadBytes m).length)).sum :=
  fs_read_accumulates [rdFrameA] rdFrameB [rdFrameC]
    (by decide) (by decide) (by decide)

/-! ## The handshake (`src/transport/serial/rpc.rs` `SerialRpcTransport::new`
and `src/transport/serial/helpers.rs`) -/

/-- One result of `reader.read` while draining: a chunk of bytes (possibly
empty — a zero-byte read) or a timed-out read.  An exhausted event list
models the deadline expiring. -/
inductive DrainEv where
  | chunk (bytes : List Nat)
  | timeout
deriving DecidableEq, Repr

/-- Does `pat` start `hay`? (`memchr`-style byte comparison.) -/
def startsWithPat : List Nat → List Nat → Bool
  | [], _ => true
  | _ :: _, [] => false
  | a :: as, h :: hs => (a == h) && startsWithPat as hs

/-- Does `pat` occur contiguously in `hay`?  Models
`memmem::Finder::find(..).is_some()`. -/
def occursIn (pat : List Nat) : List Nat → Bool
  | [] => pat == []
  | h :: hs => startsWithPat pat (h :: hs) || occursIn pat hs

/-- The read loop of `drain_until_str`, over the real juggling buffer:
`buf` is the entire 512-byte array (zero-initialized `[0u8; BUF_LEN]`)
and `filled` counts the valid bytes.  At the top of each iteration, once
more than 256 bytes are filled, `buf.copy_within(CHUNK_SIZE.., 0)`
overwrites the lower half with the upper half — leaving a stale
duplicate of the upper half in place.  A read writes up to
`min 256 (512 - filled)` bytes at offset `filled`; a zero-byte read
sleeps and retries; a timed-out read retries.  After each successful
read, `finder.find(&buf)` searches the ENTIRE array — valid bytes, stale
bytes and zero padding alike.  Returns whether the pattern was found
before the deadline (event exhaustion). -/
def drainStrGo (pat : List Nat) : List DrainEv → List Nat → Nat → Bool
  | [], _, _ => false
  | ev :: rest, buf0, filled0 =>
    let buf := if 256 < filled0 then buf0.drop 256 ++ buf0.drop 256 else buf0
    let filled := if 256 < filled0 then filled0 - 256 else filled0
    match ev with
    | DrainEv.timeout => drainStrGo pat rest buf filled
    | DrainEv.chunk bytes =>
      let n := min bytes.length (min 256 (512 - filled))
      if n = 0 then drainStrGo pat rest buf filled
      else
        let buf2 := buf.take filled ++ bytes.take n ++ buf.drop (filled + n)
        if occursIn pat buf2 then true else drainStrGo pat rest buf2 (filled + n)

/-- The marker named by a drain timeout error: either the pattern string
of `drain_until_str` or the byte of `drain_until`. -/
inductive Marker where
  | pat (p : List Nat)
  | byte (b : Nat)
deriving DecidableEq, Repr

/-- `drain_until_str` from `src/transport/serial/helpers.rs`: `Ok` once
the buffer search succeeds, otherwise a timeout error naming the
pattern.  The buffer starts as 512 zero bytes with nothing filled. -/
def drain_until_str (pat : List Nat) (evs : List DrainEv) : Except Marker Unit :=
  if drainStrGo pat evs (List.replicate 512 0) 0 then Except.ok ()
  else Except.error (Marker.pat pat)

/-- The read loop of `drain_until`: each iteration reads up to 256 bytes
and searches just that chunk for the delimiter byte. -/
def drainByteGo (delim : Nat) : List DrainEv → Bool
  | [] => false
  | DrainEv.timeout :: rest => drainByteGo delim rest
  | DrainEv.chunk bytes :: rest =>
    if (bytes.take 256).contains delim then true else drainByteGo delim rest

/-- `drain_until` from `src/transport/serial/helpers.rs`: `Ok` once the
byte appears, otherwise a timeout error naming the byte. -/
def drain_until (delim : Nat) (evs : List DrainEv) : Except Marker Unit :=
  if drainByteGo delim evs then Except.ok () else Except.error (Marker.byte delim)

instance exceptDecEq {ε α : Type} [DecidableEq ε] [DecidableEq α] :
    DecidableEq (Except ε α) := fun x y =>
  match x, y with
  | Except.error a, Except.error b =>
      if h : a = b then Decidable.isTrue (congrArg Except.error h)
      else Decidable.isFalse (fun hc => h (Except.error.inj hc))
  | Except.ok a, Except.ok b =>
      if h : a = b then Decidable.isTrue (congrArg Except.ok h)
      else Decidable.isFalse (fun hc => h (Except.ok.inj hc))
  | Except.error _, Except.ok _ => Decidable.isFalse (fun hc => Except.noConfusion hc)
  | Except.ok _, Except.error _ => Decidable.isFalse (fun hc => Except.noConfusion hc)

/-- A channel operation performed by the constructor, in order. -/
inductive HsOp where
  | drainStr (pat : List Nat)
  | writeBytes (s : List Nat)
  | flush
  | drainByte (b : Nat)
deriving DecidableEq, Repr

/-- The prompt marker `">: "` as bytes. -/
def promptPat : List Nat := [62, 58, 32]

/-- The bytes of `"start_rpc_session\r"`. -/
def startRpcCmd : List Nat :=
  [115, 116, 97, 114, 116, 95, 114, 112, 99, 95, 115, 101, 115, 115, 105,
   111, 110, 13]

/-- `SerialRpcTransport::new`: drain until the prompt `">: "`, write
`"start_rpc_session\r"` and flush, drain until a newline (byte 10), then
construct the session with `command_index = 0`.  Returns the channel
operations actually performed, in order, and the result (the initial
counter on success, the timeout marker on failure).  The two drains read
from the port stream before and after the mode-switch write. -/
def SerialRpcTransport_new (pEvs nEvs : List DrainEv) :
    List HsOp × Except Marker Nat :=
  match drain_until_str promptPat pEvs with
  | Except.error m => ([HsOp.drainStr promptPat], Except.error m)
  | Except.ok _ =>
    match drain_until 10 nEvs with
    | Except.error m =>
        ([HsOp.drainStr promptPat, HsOp.writeBytes startRpcCmd, HsOp.flush,
          HsOp.drainByte 10], Except.error m)
    | Except.ok _ =>
        ([HsOp.drainStr promptPat, HsOp.writeBytes startRpcCmd, HsOp.flush,
          HsOp.drainByte 10], Except.ok 0)

/-- All bytes a drain event stream would deliver, in order. -/
def streamBytes : List DrainEv → List Nat
  | [] => []
  | DrainEv.chunk bytes :: rest => bytes ++ streamBytes rest
  | DrainEv.timeout :: rest => streamBytes rest

/-- If the delimiter byte never arrives on the stream, the byte drain
loop does not find it. -/
theorem drainByteGo_not_in_stream (d : Nat) :
    ∀ (evs : List DrainEv),
      (streamBytes evs).contains d = false → drainByteGo d evs = false := by
  intro evs
  induction evs with
  | nil => intro _; rfl
  | cons ev rest ih =>
    intro h
    rcases ev with bytes | _
    · simp only [drainByteGo]
      have hstream : streamBytes (DrainEv.chunk bytes :: rest)
          = bytes ++ streamBytes rest := rfl
      rw [hstream] at h
      have hmem : d ∉ bytes ++ streamBytes rest := by simpa using h
      have htake : (bytes.take 256).contains d = false := by
        rcases hc : (bytes.take 256).contains d with _ | _
        · rfl
        · exfalso
          have hdm : d ∈ bytes.take 256 := by simpa using hc
          exact hmem (List.mem_append_left _ (List.mem_of_mem_take hdm))
      rw [htake]
      simp only [Bool.false_eq_true, if_false]
      apply ih
      have hrest : d ∉ streamBytes rest := fun hm => hmem (List.mem_append_right _ hm)
      simpa using hrest
    · simp only [drainByteGo]
      exact ih h

/-! ## Claim C9 -/

/-- First read burst of the C9 counterexample: 256 bytes, none of them
`'>'`, `':'` or `' '`. -/
def cexBurst1 : List Nat := List.replicate 256 1

/-- Second read burst of the C9 counterexample: 256 bytes whose second
and third bytes are `':'` and `' '` but with no `'>'` anywhere. -/
def cexBurst2 : List Nat := 1 :: 58 :: 32 :: List.replicate 253 1

/-- The C9 counterexample prompt-drain stream: two full bursts (filling
the buffer and forcing the `copy_within` shift) followed by a single
`'>'` byte.  The prompt `">: "` never occurs contiguously in these
stream bytes. -/
def cexPromptEvs : List DrainEv :=
  [DrainEv.chunk cexBurst1, DrainEv.chunk cexBurst2, DrainEv.chunk [62]]

set_option maxRecDepth 10000 in
/-- C9 counterexample: the prompt marker `">: "` never appears on the
stream, yet the constructor succeeds instead of failing with the timeout
error naming it.  After the two full bursts the shift duplicates the
upper half, so the array reads `… ':' ' ' …` right after the next write
position; writing the lone `'>'` there makes `finder.find(&buf)` match
`">: "` across the boundary between fresh and stale bytes — a marker
"found" although it was never received. -/
theorem session_new_prompt_false_positive :
    occursIn promptPat (streamBytes cexPromptEvs) = false
    ∧ SerialRpcTransport_new cexPromptEvs [DrainEv.chunk [10]]
        = ([HsOp.drainStr promptPat, HsOp.writeBytes startRpcCmd, HsOp.flush,
            HsOp.drainByte 10], Except.ok 0) := by
  decide

/-- C9 (amended): the session constructor performs the handshake in
exactly this order — drain until the prompt `">: "`, write
`"start_rpc_session\r"`, flush, drain until a newline byte — and on
success the session starts with sequence counter 0.  If the prompt drain
fails the constructor stops there with a timeout error naming the
prompt; if the newline drain fails the error names the newline byte, and
every timeout error a drain can return names exactly its marker.  For
the newline drain, a byte that never arrives on the stream guarantees
the timeout error; for the prompt drain no such guarantee holds (see the
counterexample): the search runs over the whole juggling buffer — stale
and zero-padding bytes included — and can succeed although the marker
never appeared on the stream. -/
theorem session_new_handshake :
    (∀ pEvs nEvs, drainStrGo promptPat pEvs (List.replicate 512 0) 0 = false →
       SerialRpcTransport_new pEvs nEvs
         = ([HsOp.drainStr promptPat], Except.error (Marker.pat promptPat)))
    ∧ (∀ pEvs nEvs, drainStrGo promptPat pEvs (List.replicate 512 0) 0 = true →
        drainByteGo 10 nEvs = false →
        SerialRpcTransport_new pEvs nEvs
          = ([HsOp.drainStr promptPat, HsOp.writeBytes startRpcCmd, HsOp.flush,
              HsOp.drainByte 10], Except.error (Marker.byte 10)))
    ∧ (∀ pEvs nEvs, drainStrGo promptPat pEvs (List.replicate 512 0) 0 = true →
        drainByteGo 10 nEvs = true →
        SerialRpcTransport_new pEvs nEvs
          = ([HsOp.drainStr promptPat, HsOp.writeBytes startRpcCmd, HsOp.flush,
              HsOp.drainByte 10], Except.ok 0))
    ∧ (∀ pat pEvs m, drain_until_str pat pEvs = Except.error m →
        m = Marker.pat pat)
    ∧ (∀ d nEvs, (streamBytes nEvs).contains d = false →
        drain_until d nEvs = Except.error (Marker.byte d)) := by
  refine ⟨?_, ?_, ?_, ?_, ?_⟩
  · intro pEvs nEvs h1
    unfold SerialRpcTransport_new drain_until_str
    rw [h1]
    rfl
  · intro pEvs nEvs h1 h2
    unfold SerialRpcTransport_new drain_until_str drain_until
    rw [h1, h2]
    rfl
  · intro pEvs nEvs h1 h2
    unfold SerialRpcTransport_new drain_until_str drain_until
    rw [h1, h2]
    rfl
  · intro pat pEvs m h
    unfold drain_until_str at h
    split at h
    · cases h
    · exact (Except.error.inj h).symm
  · intro d nEvs h
    have := drainByteGo_not_in_stream d nEvs h
    simp [drain_until, this]

/-- Witness for C9 (amended): a stream that immediately delivers the
prompt and then a newline yields a session with counter 0 after the full
op sequence. -/
theorem session_new_handshake_witness :
    SerialRpcTransport_new [DrainEv.chunk promptPat] [DrainEv.chunk [10]]
      = ([HsOp.drainStr promptPat, HsOp.writeBytes startRpcCmd, HsOp.flush,
          HsOp.drainByte 10], Except.ok 0) :=
  session_new_handshake.2.2.1 [DrainEv.chunk promptPat] [DrainEv.chunk [10]]
    (by decide) (by decide)

/-! ## The easy-API send (`src/transport.rs`) -/

/-- `Request::into_rpc(self, command_id)` from `src/rpc/req.rs`: a
`proto::Main` with the given command id, Ok status and
`has_next = false` (the request content is not inspected here). -/
def Request.into_rpc (command_id : Nat) : MainMsg :=
  ⟨command_id, 0, false, MsgContent.other⟩

/-- `Transport::send` of the easy API (`src/transport.rs`): read the
current counter, build the message from it, increment the counter by
one, then call `send_raw` (whose success is the oracle `rawOk`).
Returns the counter after the call, the message handed to `send_raw`,
and the propagated result. -/
def Transport_send (command_index : Nat) (rawOk : Bool) :
    Nat × MainMsg × Except Unit Unit :=
  let command_id := command_index
  let p := Request.into_rpc command_id
  let ci := wrap32 (command_index + 1)
  (ci, p, if rawOk then Except.ok () else Except.error ())

/-! ## Claim C10 -/

/-- C10: the easy-API `Transport::send` increments the sequence counter
by one before the encoded message is written, so the counter ends at
`(c+1) mod 2^32` whether or not the raw send fails; the message itself
carries the pre-increment counter value. -/
theorem transport_send_increments_before_write (ci : Nat) (rawOk : Bool) :
    (Transport_send ci rawOk).1 = wrap32 (ci + 1)
    ∧ (Transport_send ci rawOk).2.1.command_id = ci
    ∧ ((Transport_send ci rawOk).2.2 = Except.error () ↔ rawOk = false) := by
  refine ⟨rfl, rfl, ?_⟩
  cases rawOk <;> simp [Transport_send]

end FlipperRpc
